import Mathlib

/-!
# Verification of `src/xdr_stdio.c` (ntirpc): XDR stream over a stdio file

Shallow embedding of the stdio XDR backend. The C code manipulates a `long`
object byte-wise (`fread`/`fwrite` of `sizeof(int32_t)` bytes into/out of a
`long`), so the embedding is parametric in the host architecture: the byte
width of `long` and the native endianness. Casts between `long`, `u_int32_t`
and the `htonl`/`ntohl` conversions are modelled exactly (two's complement;
the implementation-defined unsigned-to-signed narrowing is modelled as the
universal wrap-around behaviour of real compilers).

The stdio `FILE` is modelled as durable contents (`data`), an output buffer
of not-yet-flushed bytes (`buf`), a position, and an open flag. `fwrite`
appends to the output buffer (the model of a freshly created forward-writing
encode stream), `fflush` moves the buffer to the durable contents, `fread`
reads from the durable contents at the current position and fails (returns
item count 0) when fewer than `size` bytes remain. `ftell`/`fseek` always
succeed on this seekable regular file, as on an LP64 host where the byte
offset fits in `long`.
-/

namespace XdrStdio

/-- Host architecture parameters: byte width of the C `long` type
(4 on ILP32/LLP64, 8 on LP64) and native byte order. -/
structure Arch where
  longBytes : Nat
  littleEndian : Bool
deriving DecidableEq

/-- x86-64 / aarch64 Linux: LP64, little-endian. -/
def arch64LE : Arch := ⟨8, true⟩

/-- 32-bit `long`, little-endian (i386, or Win64 LLP64). -/
def arch32LE : Arch := ⟨4, true⟩

/-- 64-bit `long`, big-endian (s390x, ppc64 BE). -/
def arch64BE : Arch := ⟨8, false⟩

/-- 32-bit `long`, big-endian (m68k, 32-bit SPARC). -/
def arch32BE : Arch := ⟨4, false⟩

/-- The `n` base-256 digits of `v`, least significant first:
the memory image of an `n`-byte unsigned value on a little-endian host. -/
def natToBytesLE : Nat → Nat → List Nat
  | 0, _ => []
  | n + 1, v => v % 256 :: natToBytesLE n (v / 256)

/-- Read a little-endian byte list back as a number. -/
def bytesToNatLE : List Nat → Nat
  | [] => 0
  | b :: bs => b % 256 + 256 * bytesToNatLE bs

/-- Value of an `Int` reduced into `w`-byte unsigned range
(the two's-complement memory image, read as unsigned). -/
def toUnsigned (v : Int) (w : Nat) : Nat := (v % (2 ^ (8 * w))).toNat

/-- Read a `w`-byte unsigned value as a `w`-byte two's-complement signed one. -/
def fromUnsigned (u : Nat) (w : Nat) : Int :=
  let m := u % 2 ^ (8 * w)
  if m < 2 ^ (8 * w - 1) then (m : Int) else (m : Int) - 2 ^ (8 * w)

/-- The in-memory byte image of a C `long` holding value `v` on `a`. -/
def longMemBytes (a : Arch) (v : Int) : List Nat :=
  let le := natToBytesLE a.longBytes (toUnsigned v a.longBytes)
  if a.littleEndian then le else le.reverse

/-- The value of a C `long` whose memory image is `bs` on `a`. -/
def longFromMem (a : Arch) (bs : List Nat) : Int :=
  let le := if a.littleEndian then bs else bs.reverse
  fromUnsigned (bytesToNatLE le) a.longBytes

/-- The C cast `(u_int32_t) l`: reduction modulo 2^32. -/
def toU32 (v : Int) : Nat := (v % 2 ^ 32).toNat

/-- Reverse the 4 bytes of a 32-bit value. -/
def byteswap32 (x : Nat) : Nat := bytesToNatLE ((natToBytesLE 4 x).reverse)

/-- `htonl` (= `ntohl`): identity on big-endian hosts, a 4-byte swap on
little-endian hosts. -/
def hton32 (a : Arch) (x : Nat) : Nat :=
  if a.littleEndian then byteswap32 (x % 2 ^ 32) else x % 2 ^ 32

/-- The C cast `(long) u` of a `u_int32_t` value: on a 64-bit `long` the value
is preserved; on a 32-bit `long` it wraps into signed range. -/
def u32ToLong (a : Arch) (x : Nat) : Int := fromUnsigned (x % 2 ^ 32) a.longBytes

/-- Model of a stdio `FILE`: durable contents, buffered unwritten output,
current offset, and whether the handle is open. -/
structure FileState where
  data : List Nat
  buf : List Nat
  pos : Nat
  isOpen : Bool
deriving DecidableEq

/-- `fread(p, size, 1, f)`: item count (1 on success, 0 on short read),
the bytes read, and the file afterwards. -/
def fread (f : FileState) (size : Nat) : Nat × List Nat × FileState :=
  if f.pos + size ≤ f.data.length then
    (1, (f.data.drop f.pos).take size, { f with pos := f.pos + size })
  else
    (0, [], f)

/-- `fwrite(p, size, 1, f)` of the byte list `bs`: appends to the output
buffer; succeeds (item count 1). -/
def fwrite (f : FileState) (bs : List Nat) : Nat × FileState :=
  (1, { f with buf := f.buf ++ bs, pos := f.pos + bs.length })

/-- `fflush(f)`: buffered output becomes durable. Does not close the file. -/
def fflush (f : FileState) : FileState :=
  { f with data := f.data ++ f.buf, buf := [] }

/-- `ftell(f)`. -/
def ftell (f : FileState) : Nat := f.pos

/-- `fseek(f, offset, SEEK_SET)`: returns 0 (success) for the non-negative
offsets the backend passes. -/
def fseek (f : FileState) (offset : Nat) : Int × FileState :=
  (0, { f with pos := offset })

/-- `enum xdr_op`. -/
inductive XdrOp where
  | XDR_ENCODE
  | XDR_DECODE
  | XDR_FREE
deriving DecidableEq

/-- Identity of the installed operation table; the stdio backend installs a
pointer to its single constant table `xdrstdio_ops`. -/
inductive XdrOpsRef where
  | stdioOps
deriving DecidableEq

/-- The fields of the `XDR` handle that `xdr_stdio.c` touches. Pointer-valued
scratch fields (`x_public`, `x_lib[0]`, `x_lib[1]`) are `Option Unit`
(`none` = NULL); `x_base` and `x_handy` are numeric. `x_private` holds the
backend state: the `FILE`. -/
structure XDR where
  x_op : XdrOp
  x_ops : XdrOpsRef
  x_public : Option Unit
  x_private : FileState
  x_lib0 : Option Unit
  x_lib1 : Option Unit
  x_base : Nat
  x_handy : Nat
deriving DecidableEq

/-- `xdrstdio_create(xdrs, file, op)`: assigns every field of the handle;
performs no I/O and cannot fail. -/
def xdrstdio_create (file : FileState) (op : XdrOp) : XDR :=
  { x_op := op
    x_ops := XdrOpsRef.stdioOps
    x_public := none
    x_private := file
    x_lib0 := none
    x_lib1 := none
    x_base := 0
    x_handy := 0 }

/-- `xdrstdio_destroy(xdrs)`: `fflush(x_private)`; the file is not closed. -/
def xdrstdio_destroy (xdrs : XDR) : XDR :=
  { xdrs with x_private := fflush xdrs.x_private }

/-- `xdrstdio_getlong(xdrs, lp)`. `lp` is the value the caller's `long`
variable held before the call: `fread` overwrites only its first
`sizeof(int32_t)` bytes, so on an 8-byte `long` the other four memory bytes
keep their previous contents before `*lp` is re-read whole. -/
def xdrstdio_getlong (a : Arch) (xdrs : XDR) (lp : Int) : Bool × Int × XDR :=
  let r := fread xdrs.x_private 4
  if r.1 ≠ 1 then
    (false, lp, { xdrs with x_private := r.2.2 })
  else
    let mem := r.2.1 ++ (longMemBytes a lp).drop 4
    let v := longFromMem a mem
    (true, u32ToLong a (hton32 a (toU32 v)), { xdrs with x_private := r.2.2 })

/-- `xdrstdio_putlong(xdrs, lp)`: `mycopy = (long)htonl((u_int32_t)*lp)`,
then `fwrite(&mycopy, sizeof(int32_t), 1, file)` writes the first 4 bytes of
`mycopy`'s memory image. -/
def xdrstdio_putlong (a : Arch) (xdrs : XDR) (lp : Int) : Bool × XDR :=
  let mycopy := u32ToLong a (hton32 a (toU32 lp))
  let w := fwrite xdrs.x_private ((longMemBytes a mycopy).take 4)
  if w.1 ≠ 1 then
    (false, { xdrs with x_private := w.2 })
  else
    (true, { xdrs with x_private := w.2 })

/-- `xdrstdio_getbytes(xdrs, addr, len)`: when `len != 0`, one `fread` of
`len` bytes; `len == 0` short-circuits and touches nothing. Returns the bytes
placed into the caller's buffer. -/
def xdrstdio_getbytes (xdrs : XDR) (len : Nat) : Bool × List Nat × XDR :=
  if len ≠ 0 then
    let r := fread xdrs.x_private len
    if r.1 ≠ 1 then
      (false, r.2.1, { xdrs with x_private := r.2.2 })
    else
      (true, r.2.1, { xdrs with x_private := r.2.2 })
  else
    (true, [], xdrs)

/-- `xdrstdio_putbytes(xdrs, addr, len)`: when `len != 0`, one `fwrite` of
the first `len` bytes of `addr`; `len == 0` short-circuits. -/
def xdrstdio_putbytes (xdrs : XDR) (addr : List Nat) (len : Nat) : Bool × XDR :=
  if len ≠ 0 then
    let w := fwrite xdrs.x_private (addr.take len)
    if w.1 ≠ 1 then
      (false, { xdrs with x_private := w.2 })
    else
      (true, { xdrs with x_private := w.2 })
  else
    (true, xdrs)

/-- `xdrstdio_getpos(xdrs)`: `(u_int) ftell(file)` — truncation modulo 2^32
of the (LP64) file offset. -/
def xdrstdio_getpos (xdrs : XDR) : Nat := ftell xdrs.x_private % 2 ^ 32

/-- `xdrstdio_setpos(xdrs, pos)`: `fseek(file, (long)pos, 0) < 0 ? FALSE :
TRUE`. -/
def xdrstdio_setpos (xdrs : XDR) (pos : Nat) : Bool × XDR :=
  let s := fseek xdrs.x_private pos
  if s.1 < 0 then
    (false, { xdrs with x_private := s.2 })
  else
    (true, { xdrs with x_private := s.2 })

/-- `xdrstdio_inline(xdrs, len)`: always NULL. -/
def xdrstdio_inline (_xdrs : XDR) (_len : Nat) : Option Unit := none

/-- `xdrstdio_noop`: the extension slots always report FALSE. -/
def xdrstdio_noop : Bool := false

/-! ## Operation sequences

Driving a stream through the contract: one constructor per operation of the
ops table that a caller can issue after `xdrstdio_create`. -/

/-- One call through the stdio ops table. `oGetLong` carries the previous
contents of the caller's `long` variable. -/
inductive StreamOp where
  | oGetLong (lp : Int)
  | oPutLong (v : Int)
  | oGetBytes (len : Nat)
  | oPutBytes (addr : List Nat) (len : Nat)
  | oGetPos
  | oSetPos (p : Nat)
  | oInline (len : Nat)
  | oDestroy
deriving DecidableEq

/-- The handle after one operation (results discarded). -/
def runOp (a : Arch) (xdrs : XDR) : StreamOp → XDR
  | .oGetLong lp => (xdrstdio_getlong a xdrs lp).2.2
  | .oPutLong v => (xdrstdio_putlong a xdrs v).2
  | .oGetBytes len => (xdrstdio_getbytes xdrs len).2.2
  | .oPutBytes addr len => (xdrstdio_putbytes xdrs addr len).2
  | .oGetPos => xdrs
  | .oSetPos p => (xdrstdio_setpos xdrs p).2
  | .oInline _ => xdrs
  | .oDestroy => xdrstdio_destroy xdrs

/-- The handle after a sequence of operations. -/
def runOps (a : Arch) (xdrs : XDR) : List StreamOp → XDR
  | [] => xdrs
  | op :: ops => runOps a (runOp a xdrs op) ops

/-- A decode-side call: `xdrstdio_getlong`, `xdrstdio_getbytes` or
`xdrstdio_getpos`. -/
inductive GetOp where
  | gLong (lp : Int)
  | gBytes (len : Nat)
  | gPos
deriving DecidableEq

/-- The handle after one get-side operation. -/
def runGetOp (a : Arch) (xdrs : XDR) : GetOp → XDR
  | .gLong lp => (xdrstdio_getlong a xdrs lp).2.2
  | .gBytes len => (xdrstdio_getbytes xdrs len).2.2
  | .gPos => xdrs

/-- The handle after a sequence of get-side operations. -/
def runGetOps (a : Arch) (xdrs : XDR) : List GetOp → XDR
  | [] => xdrs
  | op :: ops => runGetOps a (runGetOp a xdrs op) ops

/-- An encode-side call: `xdrstdio_putlong` or `xdrstdio_putbytes`. -/
inductive PutOp where
  | pLong (v : Int)
  | pBytes (addr : List Nat) (len : Nat)
deriving DecidableEq

/-- The handle after one put-side operation. -/
def runPutOp (a : Arch) (xdrs : XDR) : PutOp → XDR
  | .pLong v => (xdrstdio_putlong a xdrs v).2
  | .pBytes addr len => (xdrstdio_putbytes xdrs addr len).2

/-- The handle after a sequence of put-side operations. -/
def runPutOps (a : Arch) (xdrs : XDR) : List PutOp → XDR
  | [] => xdrs
  | op :: ops => runPutOps a (runPutOp a xdrs op) ops

/-- The bytes one put-side operation hands to `fwrite`. -/
def putOpWire (a : Arch) : PutOp → List Nat
  | .pLong v => (longMemBytes a (u32ToLong a (hton32 a (toU32 v)))).take 4
  | .pBytes addr len => if len ≠ 0 then addr.take len else []

/-- The bytes a sequence of put-side operations hands to `fwrite`. -/
def putOpsWire (a : Arch) : List PutOp → List Nat
  | [] => []
  | op :: ops => putOpWire a op ++ putOpsWire a ops

/-! ## Frame lemmas on the stdio primitives and the backend operations -/

theorem fread_data (f : FileState) (n : Nat) : ((fread f n).2.2).data = f.data := by
  unfold fread; split <;> rfl

theorem fread_buf (f : FileState) (n : Nat) : ((fread f n).2.2).buf = f.buf := by
  unfold fread; split <;> rfl

theorem fread_isOpen (f : FileState) (n : Nat) : ((fread f n).2.2).isOpen = f.isOpen := by
  unfold fread; split <;> rfl

theorem getlong_private (a : Arch) (xdrs : XDR) (lp : Int) :
    ((xdrstdio_getlong a xdrs lp).2.2).x_private = (fread xdrs.x_private 4).2.2 := by
  unfold xdrstdio_getlong
  dsimp only
  split <;> rfl

theorem putlong_private (a : Arch) (xdrs : XDR) (v : Int) :
    ((xdrstdio_putlong a xdrs v).2).x_private
      = (fwrite xdrs.x_private (putOpWire a (PutOp.pLong v))).2 := by
  unfold xdrstdio_putlong putOpWire
  dsimp only
  split <;> rfl

theorem getbytes_private (xdrs : XDR) (len : Nat) :
    ((xdrstdio_getbytes xdrs len).2.2).x_private
      = if len ≠ 0 then (fread xdrs.x_private len).2.2 else xdrs.x_private := by
  unfold xdrstdio_getbytes
  dsimp only
  split
  · split <;> rfl
  · rfl

theorem putbytes_private (a : Arch) (xdrs : XDR) (addr : List Nat) (len : Nat) :
    ((xdrstdio_putbytes xdrs addr len).2).x_private
      = (fwrite xdrs.x_private (putOpWire a (PutOp.pBytes addr len))).2 := by
  unfold xdrstdio_putbytes putOpWire fwrite
  dsimp only
  split
  · split <;> rfl
  · simp

theorem runOp_x_op_x_ops (a : Arch) (xdrs : XDR) (op : StreamOp) :
    (runOp a xdrs op).x_op = xdrs.x_op ∧ (runOp a xdrs op).x_ops = xdrs.x_ops := by
  cases op <;>
    (unfold runOp xdrstdio_getlong xdrstdio_putlong xdrstdio_getbytes
      xdrstdio_putbytes xdrstdio_setpos xdrstdio_destroy;
     dsimp only) <;>
    (repeat' split) <;> exact ⟨rfl, rfl⟩

theorem runOps_x_op_x_ops (a : Arch) (ops : List StreamOp) : ∀ xdrs : XDR,
    (runOps a xdrs ops).x_op = xdrs.x_op ∧ (runOps a xdrs ops).x_ops = xdrs.x_ops := by
  induction ops with
  | nil => exact fun xdrs => ⟨rfl, rfl⟩
  | cons op ops ih =>
    intro xdrs
    have h1 := runOp_x_op_x_ops a xdrs op
    have h2 := ih (runOp a xdrs op)
    exact ⟨by rw [runOps, h2.1, h1.1], by rw [runOps, h2.2, h1.2]⟩

theorem runGetOp_contents (a : Arch) (xdrs : XDR) (op : GetOp) :
    (runGetOp a xdrs op).x_private.data = xdrs.x_private.data ∧
    (runGetOp a xdrs op).x_private.buf = xdrs.x_private.buf ∧
    (runGetOp a xdrs op).x_private.isOpen = xdrs.x_private.isOpen := by
  cases op with
  | gLong lp =>
    rw [runGetOp, getlong_private]
    exact ⟨fread_data _ _, fread_buf _ _, fread_isOpen _ _⟩
  | gBytes len =>
    rw [runGetOp, getbytes_private]
    split
    · exact ⟨fread_data _ _, fread_buf _ _, fread_isOpen _ _⟩
    · exact ⟨rfl, rfl, rfl⟩
  | gPos => exact ⟨rfl, rfl, rfl⟩

theorem fwrite_effect (f : FileState) (bs : List Nat) :
    ((fwrite f bs).2).data = f.data ∧ ((fwrite f bs).2).buf = f.buf ++ bs ∧
    ((fwrite f bs).2).isOpen = f.isOpen :=
  ⟨rfl, rfl, rfl⟩

theorem runPutOp_contents (a : Arch) (xdrs : XDR) (op : PutOp) :
    (runPutOp a xdrs op).x_private.data = xdrs.x_private.data ∧
    (runPutOp a xdrs op).x_private.buf = xdrs.x_private.buf ++ putOpWire a op ∧
    (runPutOp a xdrs op).x_private.isOpen = xdrs.x_private.isOpen := by
  cases op with
  | pLong v =>
    rw [runPutOp, putlong_private]
    exact ⟨rfl, rfl, rfl⟩
  | pBytes addr len =>
    rw [runPutOp, putbytes_private a]
    exact ⟨rfl, rfl, rfl⟩

theorem runPutOps_contents (a : Arch) (ops : List PutOp) : ∀ xdrs : XDR,
    (runPutOps a xdrs ops).x_private.data = xdrs.x_private.data ∧
    (runPutOps a xdrs ops).x_private.buf = xdrs.x_private.buf ++ putOpsWire a ops ∧
    (runPutOps a xdrs ops).x_private.isOpen = xdrs.x_private.isOpen := by
  induction ops with
  | nil => exact fun xdrs => ⟨rfl, by rw [putOpsWire, List.append_nil]; rfl, rfl⟩
  | cons op ops ih =>
    intro xdrs
    have h1 := runPutOp_contents a xdrs op
    have h2 := ih (runPutOp a xdrs op)
    refine ⟨?_, ?_, ?_⟩
    · rw [runPutOps, h2.1, h1.1]
    · rw [runPutOps, h2.2.1, h1.2.1, putOpsWire, List.append_assoc]
    · rw [runPutOps, h2.2.2, h1.2.2]

theorem runGetOps_contents (a : Arch) (ops : List GetOp) : ∀ xdrs : XDR,
    (runGetOps a xdrs ops).x_private.data = xdrs.x_private.data ∧
    (runGetOps a xdrs ops).x_private.buf = xdrs.x_private.buf ∧
    (runGetOps a xdrs ops).x_private.isOpen = xdrs.x_private.isOpen := by
  induction ops with
  | nil => exact fun xdrs => ⟨rfl, rfl, rfl⟩
  | cons op ops ih =>
    intro xdrs
    have h1 := runGetOp_contents a xdrs op
    have h2 := ih (runGetOp a xdrs op)
    refine ⟨?_, ?_, ?_⟩
    · rw [runGetOps, h2.1, h1.1]
    · rw [runGetOps, h2.2.1, h1.2.1]
    · rw [runGetOps, h2.2.2, h1.2.2]

/-! ## Sanity checks of the model on 32-bit-`long` hosts

On a host whose `long` is exactly 4 bytes (either endianness), `put_long`
followed by `get_long` does recover every representable value, and
`put_long(1)` does produce the canonical big-endian bytes; the failures
proved below are specific to wider `long` types. -/

/-- The put-then-get round trip on an architecture, starting from a fresh
encode stream on an empty file and decoding its wire bytes. -/
def roundtrip (a : Arch) (v : Int) : Bool × Int :=
  let enc := (xdrstdio_putlong a (xdrstdio_create ⟨[], [], 0, true⟩ XdrOp.XDR_ENCODE) v).2
  let dec := xdrstdio_create ⟨enc.x_private.buf, [], 0, true⟩ XdrOp.XDR_DECODE
  let r := xdrstdio_getlong a dec 0
  (r.1, r.2.1)

theorem roundtrip_ok_on_32bit_long :
    roundtrip arch32LE 0 = (true, 0) ∧ roundtrip arch32LE (-1) = (true, -1) ∧
    roundtrip arch32LE (-2147483648) = (true, -2147483648) ∧
    roundtrip arch32LE 2147483647 = (true, 2147483647) ∧
    roundtrip arch32BE (-1) = (true, -1) ∧
    roundtrip arch64LE 2147483647 = (true, 2147483647) := by decide

/-! ## The claims -/

/-- C1: the claim says the `put_long`/`get_long` round trip restores every
signed 32-bit-representable value, including -1. On a host whose `long` is
8 bytes (LP64, e.g. little-endian x86-64 Linux — ntirpc's primary target),
`xdrstdio_putlong(-1)` correctly emits the wire bytes FF FF FF FF, but
`xdrstdio_getlong` computes `(long)ntohl(...)`, a value-preserving
`u_int32_t`-to-64-bit-`long` conversion with no sign extension: the round
trip returns 4294967295, not -1. -/
theorem c1_roundtrip_fails_on_lp64 :
    ((xdrstdio_putlong arch64LE (xdrstdio_create ⟨[], [], 0, true⟩ XdrOp.XDR_ENCODE)
        (-1)).2).x_private.buf = [255, 255, 255, 255] ∧
    roundtrip arch64LE (-1) = (true, 4294967295) ∧
    ¬ roundtrip arch64LE (-1) = (true, -1) := by decide

set_option maxRecDepth 8000 in
/-- C2: the claim says a successful `get_long` sign-extends the big-endian
wire value into the host's native integer width, so wire bytes with the most
significant bit set decode negative. On an 8-byte-`long` little-endian host,
decoding the wire bytes 80 00 00 00 succeeds but yields 2147483648 — the
zero-extension of the wire word — not the sign-extended -2147483648 the
claim requires. -/
theorem c2_getlong_zero_extends_on_lp64 :
    (xdrstdio_getlong arch64LE
        (xdrstdio_create ⟨[128, 0, 0, 0], [], 0, true⟩ XdrOp.XDR_DECODE) 0).1 = true ∧
    (xdrstdio_getlong arch64LE
        (xdrstdio_create ⟨[128, 0, 0, 0], [], 0, true⟩ XdrOp.XDR_DECODE) 0).2.1
      = 2147483648 ∧
    ¬ (xdrstdio_getlong arch64LE
        (xdrstdio_create ⟨[128, 0, 0, 0], [], 0, true⟩ XdrOp.XDR_DECODE) 0).2.1
      = -2147483648 := by decide

/-- C3: the claim says `put_long(1)` emits exactly 00 00 00 01 on every host
architecture. `xdrstdio_putlong` stores `(long)htonl(...)` in a `long` and
`fwrite`s the first `sizeof(int32_t)` bytes of that object; on a big-endian
host with an 8-byte `long` those are the four most significant bytes, which
are always zero, so `put_long(1)` reports success but writes 00 00 00 00. -/
theorem c3_putlong_wrong_bytes_on_be64 :
    (xdrstdio_putlong arch64BE (xdrstdio_create ⟨[], [], 0, true⟩ XdrOp.XDR_ENCODE) 1).1
      = true ∧
    ((xdrstdio_putlong arch64BE (xdrstdio_create ⟨[], [], 0, true⟩ XdrOp.XDR_ENCODE)
        1).2).x_private.buf = [0, 0, 0, 0] ∧
    ¬ ((xdrstdio_putlong arch64BE (xdrstdio_create ⟨[], [], 0, true⟩ XdrOp.XDR_ENCODE)
        1).2).x_private.buf = [0, 0, 0, 1] := by decide

/-- C4: `xdrstdio_getbytes` and `xdrstdio_putbytes` with `len == 0` succeed
and perform no I/O: the `len != 0` conjunct short-circuits before the
`fread`/`fwrite` call, so the whole handle — file contents, buffered output
and position included — is returned unchanged. -/
theorem c4_zero_length_noop (xdrs : XDR) (addr : List Nat) :
    xdrstdio_getbytes xdrs 0 = (true, [], xdrs) ∧
    xdrstdio_putbytes xdrs addr 0 = (true, xdrs) :=
  ⟨rfl, rfl⟩

/-- C5: whenever fewer than 4 bytes remain in the underlying file,
`fread(lp, sizeof(int32_t), 1, ...)` returns an item count other than 1 and
`xdrstdio_getlong` returns FALSE, on every architecture and for every prior
content of the caller's output variable. -/
theorem c5_getlong_short_read_fails (a : Arch) (xdrs : XDR) (lp : Int)
    (h : xdrs.x_private.data.length < xdrs.x_private.pos + 4) :
    (xdrstdio_getlong a xdrs lp).1 = false := by
  have hlt : ¬ (xdrs.x_private.pos + 4 ≤ xdrs.x_private.data.length) := by omega
  simp [xdrstdio_getlong, fread, hlt]

theorem c5_getlong_short_read_fails_witness :
    (xdrstdio_create ⟨[1, 2, 3], [], 0, true⟩ XdrOp.XDR_DECODE).x_private.data.length
      < (xdrstdio_create ⟨[1, 2, 3], [], 0, true⟩ XdrOp.XDR_DECODE).x_private.pos + 4 ∧
    (xdrstdio_getlong arch64LE
        (xdrstdio_create ⟨[1, 2, 3], [], 0, true⟩ XdrOp.XDR_DECODE) 0).1 = false :=
  ⟨by decide,
   c5_getlong_short_read_fails arch64LE
     (xdrstdio_create ⟨[1, 2, 3], [], 0, true⟩ XdrOp.XDR_DECODE) 0 (by decide)⟩

/-- C6: for every stream, `set_pos` at the position `p` that `get_pos` just
returned succeeds (`fseek` to a non-negative offset), and `get_pos` then
returns `p` again — also when the underlying file offset exceeds the range
of the unsigned position type, since `p` itself is already the truncated
`(u_int) ftell` value and truncating it again is the identity. -/
theorem c6_setpos_getpos_roundtrip (xdrs : XDR) :
    (xdrstdio_setpos xdrs (xdrstdio_getpos xdrs)).1 = true ∧
    xdrstdio_getpos (xdrstdio_setpos xdrs (xdrstdio_getpos xdrs)).2
      = xdrstdio_getpos xdrs := by
  refine ⟨rfl, ?_⟩
  show xdrs.x_private.pos % 2 ^ 32 % 2 ^ 32 = xdrs.x_private.pos % 2 ^ 32
  exact Nat.mod_mod_of_dvd _ dvd_rfl

/-- C7: after any sequence of `put_long`/`put_bytes` calls,
`xdrstdio_destroy` (= `fflush`) makes every byte those calls wrote durable —
the file's contents become the prior contents, the prior pending buffer, and
the wire bytes of the sequence — leaves no output buffered, and does not
close the file: the handle's open flag is exactly what it was. -/
theorem c7_destroy_flushes_not_closes (a : Arch) (xdrs : XDR) (ops : List PutOp) :
    (xdrstdio_destroy (runPutOps a xdrs ops)).x_private.isOpen
      = xdrs.x_private.isOpen ∧
    (xdrstdio_destroy (runPutOps a xdrs ops)).x_private.data
      = xdrs.x_private.data ++ (xdrs.x_private.buf ++ putOpsWire a ops) ∧
    (xdrstdio_destroy (runPutOps a xdrs ops)).x_private.buf = [] := by
  have h := runPutOps_contents a ops xdrs
  refine ⟨h.2.2, ?_, rfl⟩
  show (runPutOps a xdrs ops).x_private.data ++ (runPutOps a xdrs ops).x_private.buf
      = xdrs.x_private.data ++ (xdrs.x_private.buf ++ putOpsWire a ops)
  rw [h.1, h.2.1]

/-- C8: `xdrstdio_create` sets the handle's mode to the given op, installs
the backend's constant ops table, records the caller's file as backend
state, and zeroes the scratch fields (`x_handy`, `x_base`, `x_public` and
the two `x_lib` extension slots); and every sequence of subsequent contract
operations — get/put of longs and bytes, position get/set, inline access,
destroy — leaves the mode and the ops table exactly as creation set them. -/
theorem c8_create_sets_mode_ops_once (f : FileState) (op : XdrOp) (a : Arch)
    (ops : List StreamOp) :
    (xdrstdio_create f op).x_op = op ∧
    (xdrstdio_create f op).x_ops = XdrOpsRef.stdioOps ∧
    (xdrstdio_create f op).x_private = f ∧
    (xdrstdio_create f op).x_handy = 0 ∧
    (xdrstdio_create f op).x_base = 0 ∧
    (xdrstdio_create f op).x_public = none ∧
    (xdrstdio_create f op).x_lib0 = none ∧
    (xdrstdio_create f op).x_lib1 = none ∧
    (runOps a (xdrstdio_create f op) ops).x_op = op ∧
    (runOps a (xdrstdio_create f op) ops).x_ops = XdrOpsRef.stdioOps := by
  have h := runOps_x_op_x_ops a ops (xdrstdio_create f op)
  exact ⟨rfl, rfl, rfl, rfl, rfl, rfl, rfl, rfl, h.1, h.2⟩

/-- C9: a stream created in DECODE mode and driven by any sequence made only
of get-side operations (`get_long`, `get_bytes`, `get_pos`) never writes to
the backend file: its durable contents, its pending-output buffer and its
open flag are all exactly those of the file the stream was created on. -/
theorem c9_decode_gets_never_write (a : Arch) (f : FileState) (gets : List GetOp) :
    (runGetOps a (xdrstdio_create f XdrOp.XDR_DECODE) gets).x_private.data = f.data ∧
    (runGetOps a (xdrstdio_create f XdrOp.XDR_DECODE) gets).x_private.buf = f.buf ∧
    (runGetOps a (xdrstdio_create f XdrOp.XDR_DECODE) gets).x_private.isOpen
      = f.isOpen :=
  runGetOps_contents a gets (xdrstdio_create f XdrOp.XDR_DECODE)

/-- C10: `xdrstdio_create` is a total function of the file and the mode — it
has no failure result — and performs no I/O on the file: the handle it
builds carries the caller's file state unchanged, position and contents
included. -/
theorem c10_create_total_no_io (f : FileState) (op : XdrOp) :
    (xdrstdio_create f op).x_private = f ∧
    (xdrstdio_create f op).x_private.data = f.data ∧
    (xdrstdio_create f op).x_private.pos = f.pos :=
  ⟨rfl, rfl, rfl⟩

end XdrStdio
